import Mathlib

/-!
Verification of the spreadsheet-tagging pipeline in `src/parsing_lambda_check.py`.

The file shallowly embeds the pipeline's pure logic:

* `s3_event_info` — the event decoder (source lines 12–39), over a small
  Python-value datatype `JVal`.  The `Message` field of a real event holds a
  JSON *string*; the embedding represents such a string by the constructor
  `JVal.jjson v`, a string value carrying its decoded JSON structure, and
  `json_loads` is the function that recovers `v` from it.
* `tagger` — the tag extractor (lines 80–107).  Worksheet cells are modelled
  by `Cell` (empty cell or text).  `pd.DataFrame(ws.values)` followed by
  `df.iloc[0, 2]` is modelled by `iloc02`, a bounds-checked access to row 0,
  column 2 of the sheet's rectangular grid (openpyxl pads every row of
  `ws.values` to the sheet's column count, so the first row has the
  DataFrame's width); numeric cells and pandas dtype coercion are outside
  this embedding.
* `uploader` — the result publisher (lines 109–141).  `str.replace` is
  `pyReplace` (leftmost, non-overlapping, every occurrence; the source only
  calls it with the non-empty pattern ".xlsx").  `DataFrame.to_csv` with
  default options is `to_csv`: index column, header row, LF line terminator,
  minimal quoting with doubled quote characters, `None` rendered as the
  empty string, and a list-valued cell rendered through Python's `str`,
  which is exact here for printable-ASCII tag strings without quote or
  backslash characters.  The S3 `put` is a record appended to an explicit
  `Store`.
* `s3_tagger` — the orchestrator (lines 143–159).  The two I/O steps
  `file_downloader` and `sheet_name_grabber` (network fetch and xlsx
  parsing) are modelled by an injected `fetch` function producing the
  parsed workbook; the sheet-name list passed on is the workbook's own
  name list, as in the source.
-/

/-- Python error kinds raised by the pipeline. -/
inductive PyErr where
  | keyError
  | indexError
  | valueError
  | typeError (msg : String)
  deriving DecidableEq, Repr

/-- A Python/JSON value, as far as the event decoder needs it.
`jjson v` stands for a string whose contents are the JSON serialization of
`v` (the form the `Message` field takes in a real SNS notification);
`isinstance(·, str)` is true of it, and `json.loads` recovers `v`. -/
inductive JVal where
  | jnull
  | jstr (s : String)
  | jnum (n : Int)
  | jarr (elts : List JVal)
  | jobj (fields : List (String × JVal))
  | jjson (v : JVal)

/-- Key lookup in the field list of a Python dict. -/
def findField (fs : List (String × JVal)) (k : String) : Option JVal :=
  match fs with
  | [] => Option.none
  | (k', v) :: t => if k' = k then some v else findField t k

/-- Python `v[k]` for a string key: a value on dicts holding the key,
`KeyError` on dicts missing it, `TypeError` on non-dicts. -/
def jGet (v : JVal) (k : String) : Except PyErr JVal :=
  match v with
  | .jobj fs =>
    match findField fs k with
    | some x => .ok x
    | Option.none => .error .keyError
  | _ => .error (.typeError "value is not subscriptable by a string key")

/-- Python `v[i]` for a non-negative integer index: an element on lists,
`IndexError` past the end, `KeyError` on dicts (no integer keys occur in
this embedding), `TypeError` otherwise. -/
def jIndex (v : JVal) (i : Nat) : Except PyErr JVal :=
  match v with
  | .jarr xs =>
    match xs[i]? with
    | some x => .ok x
    | Option.none => .error .indexError
  | .jobj _ => .error .keyError
  | _ => .error (.typeError "value is not subscriptable by an integer index")

/-- `json.loads`: decodes a serialized-JSON string (`jjson v` carries its
decoded value `v`); a plain string in this embedding is opaque, hence not
valid JSON, and a non-string input is a `TypeError` as in CPython. -/
def json_loads (v : JVal) : Except PyErr JVal :=
  match v with
  | .jjson inner => .ok inner
  | .jstr _ => .error .valueError
  | _ => .error (.typeError "the JSON object must be str, bytes or bytearray")

/-- Source lines 12–39: extract the bucket name and file key from the nested
SNS notification, raising `TypeError` when either extracted value is not a
string. -/
def s3_event_info (event : JVal) : Except PyErr (String × String) := do
  let records ← jGet event "Records"
  let rec0 ← jIndex records 0
  let sns ← jGet rec0 "Sns"
  let msgRaw ← jGet sns "Message"
  let messagejson ← json_loads msgRaw
  let mrecords ← jGet messagejson "Records"
  let mrec0 ← jIndex mrecords 0
  let s3v ← jGet mrec0 "s3"
  let bucketObj ← jGet s3v "bucket"
  let nameVal ← jGet bucketObj "name"
  let bucket_name ←
    match nameVal with
    | .jstr s => pure s
    | _ => throw (.typeError "The bucket_name grabbed was not a string")
  let objectObj ← jGet s3v "object"
  let keyVal ← jGet objectObj "key"
  let file_key_attribute ←
    match keyVal with
    | .jstr s => pure s
    | _ => throw (.typeError "The file_key grabbed was not a string")
  pure (bucket_name, file_key_attribute)

/-- The canonical well-formed notification event carrying the given bucket
and key values at the nested path the decoder walks. -/
def mkInnerMessage (bucketVal keyVal : JVal) : JVal :=
  .jobj [("Records", .jarr [
    .jobj [("s3", .jobj [
      ("bucket", .jobj [("name", bucketVal)]),
      ("object", .jobj [("key", keyVal)])])]])]

def mkEvent (bucketVal keyVal : JVal) : JVal :=
  .jobj [("Records", .jarr [
    .jobj [("Sns", .jobj [
      ("Message", .jjson (mkInnerMessage bucketVal keyVal))])]])]

/-- A worksheet cell in the fragment this embedding covers: an empty cell
(Python `None`) or a text cell. -/
inductive Cell where
  | none
  | str (s : String)
  deriving DecidableEq, Repr

/-- Whether a cell value is of Python string type. -/
def Cell.isStr : Cell → Bool
  | Cell.none => false
  | Cell.str _ => true

/-- Python `str(·)` on a cell value: `str(None)` is `"None"`. -/
def pyStr : Cell → String
  | Cell.none => "None"
  | Cell.str s => s

/-- A worksheet: its name and the rectangular grid `ws.values` yields
(openpyxl pads every row to the sheet's column count). -/
structure Sheet where
  name : String
  grid : List (List Cell)
  deriving DecidableEq, Repr

/-- Split a character list at every occurrence of `sep`; the behaviour of
Python `str.split` with a single-character separator (`"".split(".") = [""]`,
`".".split(".") = ["", ""]`). -/
def splitCharOn (sep : Char) : List Char → List (List Char)
  | [] => [[]]
  | c :: t =>
    if c = sep then [] :: splitCharOn sep t
    else
      match splitCharOn sep t with
      | [] => [[c]]
      | l :: ls => (c :: l) :: ls

/-- Python `s.split('.')`. -/
def pySplitDot (s : String) : List String :=
  (splitCharOn '.' s.toList).map String.mk

/-- Whether `pat` occurs as a contiguous sublist of `hay`; the behaviour of
Python's `pat in hay` on strings. -/
def listInfixB (pat : List Char) : List Char → Bool
  | [] => pat.isEmpty
  | c :: t => pat.isPrefixOf (c :: t) || listInfixB pat t

/-- Source line 97: the sheet-eligibility test `'Table' in sheet_name`
(case-sensitive substring containment). -/
def containsTable (sheet_name : String) : Bool :=
  listInfixB "Table".toList sheet_name.toList

/-- Source line 98: `workbook[sheet_name]` in openpyxl — the sheet with
the given name, or `KeyError` when no sheet has it. -/
def wbLookup (workbook : List Sheet) (sheet_name : String) : Except PyErr Sheet :=
  match workbook with
  | [] => .error .keyError
  | s :: t => if s.name = sheet_name then .ok s else wbLookup t sheet_name

/-- Source lines 99–100: `pd.DataFrame(ws.values)` then `df.iloc[0, 2]` —
the cell at row 0, column 2 of the grid, or `IndexError` when the grid has
no rows or fewer than three columns. -/
def iloc02 (grid : List (List Cell)) : Except PyErr Cell :=
  match grid with
  | [] => .error .indexError
  | row0 :: _ =>
    match row0[2]? with
    | some v => .ok v
    | Option.none => .error .indexError

/-- The number of rows of a grid. -/
def gridRows (grid : List (List Cell)) : Nat := grid.length

/-- The number of columns of a (rectangular) grid. -/
def gridCols (grid : List (List Cell)) : Nat := (grid.headD []).length

/-- The tag table built by `tagger` (lines 103–105): the
`Table_Name/Kafka_Name` column of raw cell values and the `Tags` column of
split tag lists. -/
structure TagTable where
  names : List Cell
  tags : List (List String)
  deriving DecidableEq, Repr

/-- The column labels of every tag table (lines 104–105). -/
def tagColumns : List String := ["Table_Name/Kafka_Name", "Tags"]

/-- The loop of source lines 96–101, accumulating the `titles` and `tags`
lists over the sheet-name list and propagating the first error. -/
def taggerGo (workbook : List Sheet) : List String →
    Except PyErr (List Cell × List (List String))
  | [] => .ok ([], [])
  | sheet_name :: rest =>
    if containsTable sheet_name then
      match wbLookup workbook sheet_name with
      | .error e => .error e
      | .ok ws =>
        match iloc02 ws.grid with
        | .error e => .error e
        | .ok v =>
          (taggerGo workbook rest).map fun p =>
            (v :: p.1, pySplitDot (pyStr v) :: p.2)
    else taggerGo workbook rest

/-- Source lines 80–107: the tag extractor. -/
def tagger (workbook : List Sheet) (sheetnamelist : List String) :
    Except PyErr TagTable :=
  (taggerGo workbook sheetnamelist).map fun p => { names := p.1, tags := p.2 }

/-- One eligible sheet's contribution: look the sheet up, then read the
designated cell. -/
def sheetRecord (workbook : List Sheet) (sheet_name : String) : Except PyErr Cell :=
  match wbLookup workbook sheet_name with
  | .error e => .error e
  | .ok ws => iloc02 ws.grid

/-- Sequence a list of fallible computations, keeping the first error. -/
def collectE {α β ε : Type} (f : α → Except ε β) : List α → Except ε (List β)
  | [] => .ok []
  | x :: t =>
    match f x with
    | .error e => .error e
    | .ok b => (collectE f t).map fun bs => b :: bs

/-- The tag table determined by the designated cell values of the eligible
sheets, in order. -/
def mkTable (vs : List Cell) : TagTable :=
  { names := vs, tags := vs.map fun v => pySplitDot (pyStr v) }

/-- The scanner of CPython `str.replace` for a non-empty pattern: leftmost,
non-overlapping, every occurrence.  The counter argument skips the
remainder of a match already emitted (the source only replaces the 5-byte
pattern ".xlsx", so the empty-pattern insertion behaviour of `str.replace`
is never exercised). -/
def replaceGo (pat rep : List Char) : List Char → Nat → List Char
  | [], _ => []
  | _ :: t, Nat.succ k => replaceGo pat rep t k
  | c :: t, 0 =>
    if pat.isPrefixOf (c :: t) then rep ++ replaceGo pat rep t (pat.length - 1)
    else c :: replaceGo pat rep t 0

/-- Python `s.replace(pat, rep)` for a non-empty `pat`. -/
def pyReplace (s pat rep : String) : String :=
  String.mk (replaceGo pat.toList rep.toList s.toList 0)

/-- Source lines 122–125: the destination object key — `".xlsx"` replaced by
`"_tagged.csv"` everywhere in the key, prefixed with `"Tags/"`. -/
def newhomeOf (key : String) : String :=
  "Tags/" ++ pyReplace key ".xlsx" "_tagged.csv"

/-- Plain printable-ASCII characters on which the embedded Python `repr`
and the CSV quoting model are exact: codes 32–126 excluding `"` (34),
`'` (39), `,` (44) and backslash (92). -/
def plainChar (c : Char) : Bool :=
  32 ≤ c.toNat && c.toNat ≤ 126 &&
    c.toNat ≠ 34 && c.toNat ≠ 39 && c.toNat ≠ 44 && c.toNat ≠ 92

/-- A string of plain characters. -/
def plainString (s : String) : Bool := s.toList.all plainChar

/-- Python `repr` of a short text string; exact for plain strings. -/
def pyReprStr (s : String) : String := "'" ++ s ++ "'"

/-- Join strings with a separator (Python `sep.join`). -/
def joinSep (sep : String) : List String → String
  | [] => ""
  | [x] => x
  | x :: xs => x ++ sep ++ joinSep sep xs

/-- Python `str` of a list of strings, e.g. `['a', 'b']`. -/
def pyStrList (xs : List String) : String :=
  "[" ++ joinSep ", " (xs.map pyReprStr) ++ "]"

/-- Whether the csv writer must quote a field under the default
QUOTE_MINIMAL rule: it contains the delimiter, the quote character or a
line-break character. -/
def csvNeedsQuote (s : String) : Bool :=
  s.toList.any fun c => c = ',' || c = '"' || c = '\n' || c = '\r'

/-- Double every quote character, the csv escaping rule inside a quoted
field. -/
def csvEscape (s : String) : String :=
  String.mk (s.toList.flatMap fun c => if c = '"' then ['"', '"'] else [c])

/-- A csv field under the default QUOTE_MINIMAL quoting. -/
def csvField (s : String) : String :=
  if csvNeedsQuote s then "\"" ++ csvEscape s ++ "\"" else s

/-- How `to_csv` renders a name cell: `None` becomes the empty string
(the default `na_rep`), text is written as a csv field. -/
def cellCsv : Cell → String
  | Cell.none => ""
  | Cell.str s => csvField s

/-- A cell is plain when it is empty or holds a plain string. -/
def plainCell : Cell → Bool
  | Cell.none => true
  | Cell.str s => plainString s

/-- The lines of a character sequence, split at every LF. -/
def linesOf : List Char → List (List Char) := splitCharOn '\n'

/-- The character of a decimal digit. -/
def digitChar : Nat → Char
  | 0 => '0'
  | 1 => '1'
  | 2 => '2'
  | 3 => '3'
  | 4 => '4'
  | 5 => '5'
  | 6 => '6'
  | 7 => '7'
  | 8 => '8'
  | _ => '9'

/-- The decimal digits of a natural number, most significant first; the
first argument is structural fuel (any value above the digit count works). -/
def natChars : Nat → Nat → List Char
  | 0, _ => []
  | fuel + 1, n =>
    if n < 10 then [digitChar n]
    else natChars fuel (n / 10) ++ [digitChar (n % 10)]

/-- Python `str` of a non-negative integer, used for the index column. -/
def natStr (n : Nat) : String := String.mk (natChars (n + 1) n)

/-- One data row of the csv artifact, without its line terminator: the row
index, the name cell, and the `Tags` list rendered through Python `str`. -/
def csvRowBody (i : Nat) (row : Cell × List String) : String :=
  natStr i ++ "," ++ cellCsv row.1 ++ "," ++ csvField (pyStrList row.2)

/-- The data rows of the csv artifact from row index `i` on, each followed
by the LF line terminator. -/
def rowsCsv : Nat → List (Cell × List String) → String
  | _, [] => ""
  | i, row :: rest => csvRowBody i row ++ "\n" ++ rowsCsv (i + 1) rest

/-- Source line 134: `df.to_csv(csv_buffer)` with default options — the
header line (empty index label then the column labels) and one line per
row. -/
def to_csv (df : TagTable) : String :=
  "," ++ joinSep "," tagColumns ++ "\n" ++ rowsCsv 0 (df.names.zip df.tags)

/-- The storage service: the objects written so far, each a
(bucket, key, body) triple. -/
structure Store where
  objs : List (String × String × String)
  deriving DecidableEq, Repr

/-- A single blocking `put` of an object body. -/
def putObject (st : Store) (bucket key body : String) : Store :=
  ⟨(bucket, key, body) :: st.objs⟩

/-- The `df` argument of `uploader`: the tag table the caller passes, or an
arbitrary non-DataFrame value. -/
inductive DfArg where
  | df (t : TagTable)
  | notDf
  deriving DecidableEq, Repr

/-- Whether the `df` argument is an actual DataFrame. -/
def DfArg.isDf : DfArg → Bool
  | .df _ => true
  | .notDf => false

/-- Source lines 109–141: the result publisher.  It derives the destination
key, raises `TypeError` when the `df` argument is not a DataFrame (before
any write), serializes the table, performs the single `put`, and returns
the success message built from the bucket name alone. -/
def uploader (key : String) (dfArg : DfArg) (bucket_name : String)
    (st : Store) : Except PyErr String × Store :=
  let newhome := newhomeOf key
  match dfArg with
  | .notDf => (.error (.typeError "df used is not filetype: DataFrame"), st)
  | .df df =>
    (.ok ("The file has been uploaded to " ++ bucket_name),
      putObject st bucket_name newhome (to_csv df))

/-- Source lines 143–159: the orchestrator.  The event is decoded; the
network fetch and xlsx parse (`file_downloader` and `sheet_name_grabber`)
are modelled by the injected `fetch`, whose sheet-name list is the
workbook's own list, as `attribute_ex.sheetnames` is; the tag table is
built and published.  Any step's error aborts the run with the store
untouched. -/
def s3_tagger (fetch : String → String → List Sheet) (event : JVal)
    (st : Store) : Except PyErr String × Store :=
  match s3_event_info event with
  | .error e => (.error e, st)
  | .ok (bucket, key) =>
    let wb := fetch bucket key
    let sheet_names := wb.map Sheet.name
    match tagger wb sheet_names with
    | .error e => (.error e, st)
    | .ok df => uploader key (.df df) bucket st

/-- The fixed text of the success message, as a character list. -/
def uploadPrefixL : List Char :=
  ['T', 'h', 'e', ' ', 'f', 'i', 'l', 'e', ' ', 'h', 'a', 's', ' ',
   'b', 'e', 'e', 'n', ' ', 'u', 'p', 'l', 'o', 'a', 'd', 'e', 'd',
   ' ', 't', 'o', ' ']

/-- No character of the list is an LF. -/
abbrev noNlL (l : List Char) : Prop := ∀ c ∈ l, c ≠ '\n'

/-! Helper lemmas. -/

theorem listInfixB_iff (pat : List Char) :
    ∀ hay : List Char, listInfixB pat hay = true ↔ pat <:+: hay := by
  intro hay
  induction hay with
  | nil =>
    simp only [listInfixB, List.isEmpty_iff]
    constructor
    · intro h; exact h ▸ List.infix_rfl
    · intro h; exact List.eq_nil_of_infix_nil h
  | cons c t ih =>
    simp only [listInfixB, Bool.or_eq_true, List.isPrefixOf_iff_prefix, ih,
      List.infix_cons_iff]

theorem wbLookup_ok_of_mem (wb : List Sheet) (n : String)
    (h : n ∈ wb.map Sheet.name) :
    ∃ s, wbLookup wb n = .ok s ∧ s ∈ wb ∧ s.name = n := by
  induction wb with
  | nil => simp at h
  | cons s₀ rest ih =>
    by_cases he : s₀.name = n
    · exact ⟨s₀, by simp [wbLookup, he], List.mem_cons_self s₀ rest, he⟩
    · have h' : n ∈ rest.map Sheet.name := by
        simp only [List.map_cons, List.mem_cons] at h
        exact h.resolve_left fun hx => he hx.symm
      obtain ⟨s, hs, hmem, hname⟩ := ih h'
      exact ⟨s, by simp [wbLookup, he, hs], List.mem_cons_of_mem s₀ hmem, hname⟩

theorem wbLookup_self_of_nodup (wb : List Sheet) (s : Sheet)
    (hnd : (wb.map Sheet.name).Nodup) (hmem : s ∈ wb) :
    wbLookup wb s.name = .ok s := by
  induction wb with
  | nil => simp at hmem
  | cons s₀ rest ih =>
    rcases List.mem_cons.mp hmem with rfl | hmem'
    · simp [wbLookup]
    · have hne : s₀.name ≠ s.name := by
        intro he
        have : s.name ∈ rest.map Sheet.name := List.mem_map_of_mem Sheet.name hmem'
        exact (List.nodup_cons.mp (by simpa using hnd)).1 (he ▸ this)
      have hnd' : (rest.map Sheet.name).Nodup :=
        (List.nodup_cons.mp (by simpa using hnd)).2
      simp [wbLookup, hne, ih hnd' hmem']

theorem iloc02_ok_iff (grid : List (List Cell)) (v : Cell) :
    iloc02 grid = .ok v ↔ ∃ row0, grid[0]? = some row0 ∧ row0[2]? = some v := by
  cases grid with
  | nil => simp [iloc02]
  | cons r rest =>
    cases h : r[2]? with
    | none => simp [iloc02, h]
    | some w => simp [iloc02, h]

theorem iloc02_error_eq (grid : List (List Cell)) (e : PyErr)
    (h : iloc02 grid = .error e) : e = .indexError := by
  cases grid with
  | nil => simpa [iloc02] using h.symm
  | cons r rest =>
    cases hr : r[2]? with
    | none => rw [iloc02, hr] at h; exact (Except.error.inj h).symm
    | some w => rw [iloc02, hr] at h; cases h

theorem iloc02_error_of_bad (grid : List (List Cell))
    (h : gridRows grid < 1 ∨ gridCols grid < 3) :
    iloc02 grid = .error .indexError := by
  cases grid with
  | nil => rfl
  | cons r rest =>
    rcases h with h | h
    · simp [gridRows] at h
    · have : r[2]? = Option.none := by
        apply List.getElem?_eq_none
        simp only [gridCols, List.headD_cons] at h
        omega
      simp [iloc02, this]

theorem collectE_ok_getElem {α β ε : Type} (f : α → Except ε β)
    (l : List α) (bs : List β) (h : collectE f l = .ok bs) :
    ∀ (j : Nat) (x : α), l[j]? = some x → ∃ b, f x = .ok b ∧ bs[j]? = some b := by
  induction l generalizing bs with
  | nil => intro j x hx; simp at hx
  | cons y t ih =>
    intro j x hx
    rw [collectE] at h
    cases hy : f y with
    | error e => rw [hy] at h; cases h
    | ok b =>
      rw [hy] at h
      cases hc : collectE f t with
      | error e => rw [hc] at h; cases h
      | ok bs' =>
        rw [hc] at h
        have hbs : bs = b :: bs' := by
          simpa [Except.map] using h.symm
        subst hbs
        cases j with
        | zero =>
          simp only [List.getElem?_cons_zero, Option.some.injEq] at hx
          subst hx
          exact ⟨b, hy, List.getElem?_cons_zero⟩
        | succ j' =>
          simp only [List.getElem?_cons_succ] at hx ⊢
          exact ih bs' hc j' x hx

theorem collectE_ok_of_all {α β ε : Type} (f : α → Except ε β) (l : List α)
    (h : ∀ x ∈ l, ∃ b, f x = .ok b) : ∃ bs, collectE f l = .ok bs := by
  induction l with
  | nil => exact ⟨[], rfl⟩
  | cons y t ih =>
    obtain ⟨b, hb⟩ := h y (List.mem_cons_self y t)
    obtain ⟨bs, hbs⟩ := ih fun x hx => h x (List.mem_cons_of_mem y hx)
    exact ⟨b :: bs, by simp [collectE, hb, hbs, Except.map]⟩

theorem collectE_error_of_mem {α β ε : Type} (f : α → Except ε β) (l : List α)
    (e : ε) (hall : ∀ x ∈ l, f x = .error e ∨ ∃ b, f x = .ok b)
    (hex : ∃ x ∈ l, f x = .error e) : collectE f l = .error e := by
  induction l with
  | nil => simp at hex
  | cons y t ih =>
    rcases hall y (List.mem_cons_self y t) with hy | ⟨b, hy⟩
    · simp [collectE, hy]
    · have hex' : ∃ x ∈ t, f x = .error e := by
        obtain ⟨x, hx, hfx⟩ := hex
        rcases List.mem_cons.mp hx with rfl | hx'
        · rw [hy] at hfx; cases hfx
        · exact ⟨x, hx', hfx⟩
      have ht := ih (fun x hx => hall x (List.mem_cons_of_mem y hx)) hex'
      simp [collectE, hy, ht, Except.map]

theorem taggerGo_eq (wb : List Sheet) (names : List String) :
    taggerGo wb names =
      (collectE (sheetRecord wb) (names.filter containsTable)).map
        (fun vs => (vs, vs.map fun v => pySplitDot (pyStr v))) := by
  induction names with
  | nil => rfl
  | cons n rest ih =>
    cases h : containsTable n with
    | false => simpa [taggerGo, h, List.filter_cons] using ih
    | true =>
      rw [taggerGo, if_pos h, List.filter_cons, if_pos h]
      cases hw : wbLookup wb n with
      | error e => simp [collectE, sheetRecord, hw, Except.map]
      | ok ws =>
        cases hi : iloc02 ws.grid with
        | error e => simp [collectE, sheetRecord, hw, hi, Except.map]
        | ok v =>
          rw [ih]
          cases hc : collectE (sheetRecord wb) (rest.filter containsTable) with
          | error e => simp [collectE, sheetRecord, hw, hi, hc, Except.map]
          | ok vs => simp [collectE, sheetRecord, hw, hi, hc, Except.map]

theorem tagger_eq (wb : List Sheet) (names : List String) :
    tagger wb names =
      (collectE (sheetRecord wb) (names.filter containsTable)).map mkTable := by
  rw [tagger, taggerGo_eq]
  cases collectE (sheetRecord wb) (names.filter containsTable) with
  | error e => rfl
  | ok vs => rfl

theorem tagger_getElem_of_chain (wb : List Sheet) (names : List String)
    (t : TagTable) (j : Nat) (n : String) (s : Sheet) (row0 : List Cell)
    (v : Cell) (ht : tagger wb names = .ok t)
    (hj : (names.filter containsTable)[j]? = some n)
    (hw : wbLookup wb n = .ok s) (hr : s.grid[0]? = some row0)
    (hv : row0[2]? = some v) :
    t.names[j]? = some v ∧ t.tags[j]? = some (pySplitDot (pyStr v)) := by
  rw [tagger_eq] at ht
  cases hc : collectE (sheetRecord wb) (names.filter containsTable) with
  | error e => rw [hc] at ht; cases ht
  | ok vs =>
    rw [hc] at ht
    have htv : t = mkTable vs := by simpa [Except.map] using ht.symm
    obtain ⟨b, hb, hbs⟩ := collectE_ok_getElem _ _ _ hc j n hj
    have hrec : sheetRecord wb n = .ok v := by
      simp only [sheetRecord, hw]
      exact (iloc02_ok_iff s.grid v).mpr ⟨row0, hr, hv⟩
    have hbv : b = v := by rw [hrec] at hb; exact (Except.ok.inj hb).symm
    subst hbv htv
    refine ⟨hbs, ?_⟩
    simp [mkTable, List.getElem?_map, hbs]

/-- C1: for every eligible sheet whose grid has a row 0 and a column 2, the
tag extractor produces a record whose name is the value at row 0, column 2
of that sheet's grid and whose tags are the string form of that value split
on "."; in particular a matching sheet holding "region.us-east.prod" there
yields that name with tags ["region", "us-east", "prod"]. -/
theorem c1_record_from_designated_cell :
    (∀ (wb : List Sheet) (names : List String) (t : TagTable) (j : Nat)
        (n : String) (s : Sheet) (row0 : List Cell) (v : Cell),
      tagger wb names = .ok t →
      (names.filter containsTable)[j]? = some n →
      wbLookup wb n = .ok s →
      s.grid[0]? = some row0 →
      row0[2]? = some v →
      t.names[j]? = some v ∧ t.tags[j]? = some (pySplitDot (pyStr v))) ∧
    tagger [⟨"Table1", [[Cell.str "x", Cell.str "y", Cell.str "region.us-east.prod"]]⟩]
        ["Table1"]
      = .ok ⟨[Cell.str "region.us-east.prod"], [["region", "us-east", "prod"]]⟩ :=
  ⟨tagger_getElem_of_chain, rfl⟩

/-- Witness for C1 at a one-sheet workbook holding "region.us-east.prod" at
row 0, column 2 of its only (eligible) sheet. -/
theorem c1_record_from_designated_cell_witness :
    tagger [⟨"Table1", [[Cell.str "x", Cell.str "y", Cell.str "region.us-east.prod"]]⟩]
        ["Table1"]
      = .ok ⟨[Cell.str "region.us-east.prod"], [["region", "us-east", "prod"]]⟩ ∧
    (⟨[Cell.str "region.us-east.prod"], [["region", "us-east", "prod"]]⟩ :
        TagTable).names[0]? = some (Cell.str "region.us-east.prod") ∧
    (⟨[Cell.str "region.us-east.prod"], [["region", "us-east", "prod"]]⟩ :
        TagTable).tags[0]? = some (pySplitDot (pyStr (Cell.str "region.us-east.prod"))) :=
  ⟨rfl,
    c1_record_from_designated_cell.1
      [⟨"Table1", [[Cell.str "x", Cell.str "y", Cell.str "region.us-east.prod"]]⟩]
      ["Table1"]
      ⟨[Cell.str "region.us-east.prod"], [["region", "us-east", "prod"]]⟩
      0 "Table1"
      ⟨"Table1", [[Cell.str "x", Cell.str "y", Cell.str "region.us-east.prod"]]⟩
      [Cell.str "x", Cell.str "y", Cell.str "region.us-east.prod"]
      (Cell.str "region.us-east.prod")
      rfl rfl rfl rfl rfl⟩

/-- C2: the tag extractor processes exactly the sheets whose name contains
the substring "Table", in sheet order, one record per eligible sheet; with
no eligible sheet it succeeds with zero rows and the two column labels; on
["Cover", "Table1", "Notes", "Table_Summary"] it processes exactly
["Table1", "Table_Summary"], two rows in that order. -/
theorem c2_processes_exactly_eligible_sheets :
    (∀ (wb : List Sheet) (names : List String),
      tagger wb names =
        (collectE (sheetRecord wb) (names.filter containsTable)).map mkTable) ∧
    (∀ (wb : List Sheet) (names : List String),
      names.filter containsTable = [] →
      tagger wb names = .ok ⟨[], []⟩ ∧
        to_csv ⟨[], []⟩ = ",Table_Name/Kafka_Name,Tags\n") ∧
    ["Cover", "Table1", "Notes", "Table_Summary"].filter containsTable
      = ["Table1", "Table_Summary"] ∧
    tagger
        [⟨"Cover", []⟩,
         ⟨"Table1", [[Cell.str "a", Cell.str "b", Cell.str "alpha.beta"]]⟩,
         ⟨"Notes", []⟩,
         ⟨"Table_Summary", [[Cell.str "c", Cell.str "d", Cell.str "gamma"]]⟩]
        ["Cover", "Table1", "Notes", "Table_Summary"]
      = .ok ⟨[Cell.str "alpha.beta", Cell.str "gamma"],
             [["alpha", "beta"], ["gamma"]]⟩ := by
  refine ⟨tagger_eq, ?_, rfl, rfl⟩
  intro wb names h
  rw [tagger_eq, h]
  exact ⟨rfl, rfl⟩

/-- Witness for C2: a workbook with no eligible sheet name yields the empty
table, and the general shape instantiates at a concrete workbook. -/
theorem c2_processes_exactly_eligible_sheets_witness :
    (tagger [] ["Cover", "Notes"] =
      (collectE (sheetRecord []) (["Cover", "Notes"].filter containsTable)).map mkTable) ∧
    tagger [] ["Cover", "Notes"] = .ok ⟨[], []⟩ ∧
      to_csv ⟨[], []⟩ = ",Table_Name/Kafka_Name,Tags\n" :=
  ⟨c2_processes_exactly_eligible_sheets.1 [] ["Cover", "Notes"],
   c2_processes_exactly_eligible_sheets.2.1 [] ["Cover", "Notes"] rfl⟩

/-- C5: an eligible sheet whose grid has no rows or fewer than three columns
makes the tag extractor fail with the propagated IndexError (given the
workbook's sheet names are unique, as the source format guarantees, and
the name list is the workbook's own, as the orchestrator passes it). -/
theorem c5_malformed_eligible_sheet_fails :
    ∀ (wb : List Sheet) (s : Sheet),
      (wb.map Sheet.name).Nodup →
      s ∈ wb →
      containsTable s.name = true →
      (gridRows s.grid < 1 ∨ gridCols s.grid < 3) →
      tagger wb (wb.map Sheet.name) = .error .indexError := by
  intro wb s hnd hmem helig hbad
  rw [tagger_eq]
  have hcol : collectE (sheetRecord wb) ((wb.map Sheet.name).filter containsTable)
      = .error .indexError := by
    apply collectE_error_of_mem
    · intro n hn
      have hn' : n ∈ wb.map Sheet.name := List.mem_of_mem_filter hn
      obtain ⟨s', hs', _, _⟩ := wbLookup_ok_of_mem wb n hn'
      simp only [sheetRecord, hs']
      cases hi : iloc02 s'.grid with
      | error e => exact Or.inl (by rw [iloc02_error_eq s'.grid e hi])
      | ok v => exact Or.inr ⟨v, rfl⟩
    · refine ⟨s.name, ?_, ?_⟩
      · exact List.mem_filter.mpr ⟨List.mem_map_of_mem Sheet.name hmem, helig⟩
      · simp only [sheetRecord, wbLookup_self_of_nodup wb s hnd hmem]
        exact iloc02_error_of_bad s.grid hbad
  rw [hcol]
  rfl

/-- Witness for C5 at a workbook whose only sheet is named "Table1" but has
a one-column grid. -/
theorem c5_malformed_eligible_sheet_fails_witness :
    ([⟨"Table1", [[Cell.str "a"]]⟩].map Sheet.name).Nodup ∧
    tagger [⟨"Table1", [[Cell.str "a"]]⟩]
        ([⟨"Table1", [[Cell.str "a"]]⟩].map Sheet.name)
      = .error .indexError :=
  ⟨by decide,
   c5_malformed_eligible_sheet_fails [⟨"Table1", [[Cell.str "a"]]⟩]
     ⟨"Table1", [[Cell.str "a"]]⟩ (by decide) (by decide) rfl
     (Or.inr (by decide))⟩

theorem replaceGo_id_of_no_occurrence (pat rep : List Char) :
    ∀ s : List Char, ¬ (pat <:+: s) → replaceGo pat rep s 0 = s := by
  intro s
  induction s with
  | nil => intro _; rfl
  | cons c t ih =>
    intro h
    have hp : pat.isPrefixOf (c :: t) = false := by
      cases hps : pat.isPrefixOf (c :: t)
      · rfl
      · exact absurd (List.IsPrefix.isInfix ( List.isPrefixOf_iff_prefix.mp hps)) h
    show (if pat.isPrefixOf (c :: t) then rep ++ replaceGo pat rep t (pat.length - 1)
          else c :: replaceGo pat rep t 0) = c :: t
    rw [hp]
    simp only [Bool.false_eq_true, if_false]
    rw [ih fun hi => h (List.infix_cons hi)]

/-- C3: the destination key is "Tags/" prepended to the key with every
occurrence of ".xlsx" — also mid-string or repeated — replaced by
"_tagged.csv"; "data/report.xlsx" maps to "Tags/data/report_tagged.csv",
and a key with no ".xlsx" substring maps to "Tags/" + key unchanged. -/
theorem c3_destination_key :
    newhomeOf "data/report.xlsx" = "Tags/data/report_tagged.csv" ∧
    newhomeOf "a.xlsx.xlsxb" = "Tags/a_tagged.csv_tagged.csvb" ∧
    ∀ key : String, listInfixB ".xlsx".toList key.toList = false →
      newhomeOf key = "Tags/" ++ key := by
  refine ⟨rfl, rfl, ?_⟩
  intro key h
  have hni : ¬ (".xlsx".toList <:+: key.toList) := by
    rw [← listInfixB_iff, h]
    exact Bool.false_ne_true
  rw [newhomeOf, pyReplace, replaceGo_id_of_no_occurrence _ _ _ hni]
  cases key
  rfl

/-- Witness for C3 at a key containing no ".xlsx" substring. -/
theorem c3_destination_key_witness :
    listInfixB ".xlsx".toList "plain/file.txt".toList = false ∧
    newhomeOf "plain/file.txt" = "Tags/" ++ "plain/file.txt" :=
  ⟨rfl, c3_destination_key.2.2 "plain/file.txt" rfl⟩

/-- Counterexample to C4 as stated: an event whose bucket field is the empty
string is decoded successfully, so the returned bucket value is not a
non-empty string. -/
theorem c4_counterexample :
    s3_event_info (mkEvent (.jstr "") (.jstr "k")) = .ok ("", "k") ∧
    ("" : String).length = 0 :=
  ⟨rfl, rfl⟩

/-- C4 as amended: for every nested event whose bucket and key fields are
strings the decoder returns exactly that (bucket, key) pair — the values
are strings but need not be non-empty — and a non-string bucket or key
field fails with the corresponding TypeError. -/
theorem c4_decoder_returns_exact_pair :
    (∀ b k : String, s3_event_info (mkEvent (.jstr b) (.jstr k)) = .ok (b, k)) ∧
    (∀ (v : JVal) (k : String), (∀ s, v ≠ .jstr s) →
      s3_event_info (mkEvent v (.jstr k))
        = .error (.typeError "The bucket_name grabbed was not a string")) ∧
    (∀ (b : String) (v : JVal), (∀ s, v ≠ .jstr s) →
      s3_event_info (mkEvent (.jstr b) v)
        = .error (.typeError "The file_key grabbed was not a string")) := by
  refine ⟨fun b k => rfl, ?_, ?_⟩
  · intro v k h
    cases v with
    | jstr s => exact absurd rfl (h s)
    | jnull => rfl
    | jnum n => rfl
    | jarr xs => rfl
    | jobj fs => rfl
    | jjson w => rfl
  · intro b v h
    cases v with
    | jstr s => exact absurd rfl (h s)
    | jnull => rfl
    | jnum n => rfl
    | jarr xs => rfl
    | jobj fs => rfl
    | jjson w => rfl

/-- Witness for C4 as amended: a string-valued event decodes to its pair and
an integer-valued bucket field raises the TypeError. -/
theorem c4_decoder_returns_exact_pair_witness :
    s3_event_info (mkEvent (.jstr "mybucket") (.jstr "data/report.xlsx"))
      = .ok ("mybucket", "data/report.xlsx") ∧
    s3_event_info (mkEvent (.jnum 7) (.jstr "data/report.xlsx"))
      = .error (.typeError "The bucket_name grabbed was not a string") :=
  ⟨c4_decoder_returns_exact_pair.1 "mybucket" "data/report.xlsx",
   c4_decoder_returns_exact_pair.2.1 (.jnum 7) "data/report.xlsx"
     (fun s h => by cases h)⟩

/-- C9: the result publisher raises its TypeError exactly when its table
argument is not a DataFrame, and on that failure the storage state is
unchanged — in particular no write is performed. -/
theorem c9_uploader_type_guard :
    ∀ (key : String) (arg : DfArg) (bucket : String) (st : Store),
      ((uploader key arg bucket st).1
          = .error (.typeError "df used is not filetype: DataFrame")
        ↔ arg.isDf = false) ∧
      (∀ e, (uploader key arg bucket st).1 = .error e →
        (uploader key arg bucket st).2 = st) := by
  intro key arg bucket st
  cases arg with
  | notDf => exact ⟨by simp [uploader, DfArg.isDf], fun e _ => rfl⟩
  | df t =>
    refine ⟨?_, ?_⟩
    · simp [uploader, DfArg.isDf]
    · intro e he
      simp [uploader] at he

/-- Witness for C9 at a non-DataFrame argument: the TypeError is raised and
the store is left untouched. -/
theorem c9_uploader_type_guard_witness :
    ((uploader "k.xlsx" .notDf "b" ⟨[]⟩).1
        = .error (.typeError "df used is not filetype: DataFrame")
      ↔ DfArg.isDf .notDf = false) ∧
    (uploader "k.xlsx" .notDf "b" ⟨[]⟩).2 = ⟨[]⟩ :=
  ⟨(c9_uploader_type_guard "k.xlsx" .notDf "b" ⟨[]⟩).1,
   (c9_uploader_type_guard "k.xlsx" .notDf "b" ⟨[]⟩).2
     (.typeError "df used is not filetype: DataFrame") rfl⟩

theorem uploadPrefixL_eq : "The file has been uploaded to ".toList = uploadPrefixL := rfl

theorem uploadPrefixL_T_unique :
    ∀ n : Nat, n < 30 → uploadPrefixL[n]? = some 'T' → n = 0 := by decide

theorem message_toList (b : String) :
    ("The file has been uploaded to " ++ b).toList = uploadPrefixL ++ b.toList := by
  show ("The file has been uploaded to " ++ b).data
    = uploadPrefixL ++ b.data
  rw [String.data_append]
  rfl

theorem newhomeOf_toList (key : String) :
    (newhomeOf key).toList
      = 'T' :: 'a' :: 'g' :: 's' :: '/' :: (pyReplace key ".xlsx" "_tagged.csv").toList := by
  show ("Tags/" ++ pyReplace key ".xlsx" "_tagged.csv").data
    = 'T' :: 'a' :: 'g' :: 's' :: '/' :: (pyReplace key ".xlsx" "_tagged.csv").data
  rw [String.data_append]
  rfl

theorem isInfix_append_uploadPrefixL (p2 b : List Char)
    (h : ('T' :: 'a' :: p2) <:+: uploadPrefixL ++ b) :
    ('T' :: 'a' :: p2) <:+: b := by
  obtain ⟨s, t, hst⟩ := h
  have hst' : uploadPrefixL ++ b = s ++ (('T' :: 'a' :: p2) ++ t) := by
    rw [← hst, List.append_assoc]
  rcases List.append_eq_append_iff.mp hst' with ⟨l, _, hb⟩ | ⟨l, hu, hd⟩
  · exact ⟨l, t, by rw [hb, List.append_assoc]⟩
  · cases l with
    | nil =>
      rw [List.nil_append] at hd
      exact ⟨[], t, by rw [List.nil_append, hd]⟩
    | cons c l' =>
      simp only [List.cons_append] at hd
      injection hd with hcT hd2
      subst hcT
      have hTpos : uploadPrefixL[s.length]? = some 'T' := by
        rw [hu, List.getElem?_append_right (le_refl s.length)]
        simp
      have hlen : s.length < 30 := by
        have h30 : uploadPrefixL.length = 30 := rfl
        have hc := congrArg List.length hu
        rw [h30, List.length_append, List.length_cons] at hc
        omega
      have hs0 : s = [] :=
        List.length_eq_zero.mp (uploadPrefixL_T_unique s.length hlen hTpos)
      subst hs0
      rw [List.nil_append] at hu
      simp only [uploadPrefixL] at hu
      injection hu with _ hl'
      rw [← hl'] at hd2
      simp only [List.cons_append] at hd2
      injection hd2 with hah _
      exact absurd hah (by decide)

/-- Counterexample to C6 as stated: a successful run against the bucket
named "Tags/report_tagged.csv" with key "report.xlsx" returns a message
that does contain the destination key. -/
theorem c6_counterexample :
    (s3_tagger (fun _ _ => [])
        (mkEvent (.jstr "Tags/report_tagged.csv") (.jstr "report.xlsx")) ⟨[]⟩).1
      = .ok "The file has been uploaded to Tags/report_tagged.csv" ∧
    listInfixB (newhomeOf "report.xlsx").toList
        "The file has been uploaded to Tags/report_tagged.csv".toList = true :=
  ⟨rfl, rfl⟩

/-- C6 as amended: every successful invocation returns exactly the string
"The file has been uploaded to " followed by the decoded bucket name, and
the message does not contain the destination key unless the bucket name
itself contains it. -/
theorem c6_success_message :
    ∀ (fetch : String → String → List Sheet) (event : JVal) (st : Store)
      (msg : String) (st2 : Store) (b k : String),
      s3_event_info event = .ok (b, k) →
      s3_tagger fetch event st = (.ok msg, st2) →
      msg = "The file has been uploaded to " ++ b ∧
      (listInfixB (newhomeOf k).toList b.toList = false →
        listInfixB (newhomeOf k).toList msg.toList = false) := by
  intro fetch event st msg st2 b k hev hrun
  unfold s3_tagger at hrun
  rw [hev] at hrun
  dsimp only at hrun
  have hmsg : msg = "The file has been uploaded to " ++ b := by
    cases htag : tagger (fetch b k) (List.map Sheet.name (fetch b k)) with
    | error e => rw [htag] at hrun; cases (Prod.mk.injEq _ _ _ _ ▸ hrun).1
    | ok df =>
      rw [htag] at hrun
      unfold uploader at hrun
      dsimp only at hrun
      exact (Except.ok.inj (Prod.mk.injEq _ _ _ _ ▸ hrun).1).symm
  refine ⟨hmsg, ?_⟩
  intro hb
  cases hm : listInfixB (newhomeOf k).toList msg.toList with
  | false => rfl
  | true =>
    exfalso
    have hinf : (newhomeOf k).toList <:+: msg.toList := (listInfixB_iff _ _).mp hm
    rw [hmsg, message_toList] at hinf
    rw [newhomeOf_toList] at hinf
    have hin_b : (newhomeOf k).toList <:+: b.toList := by
      rw [newhomeOf_toList]
      exact isInfix_append_uploadPrefixL _ _ hinf
    rw [← listInfixB_iff _ _, hb] at hin_b
    cases hin_b

/-- Witness for C6 as amended at a concrete successful run: a workbook with
no eligible sheet, bucket "mybucket", key "data/report.xlsx". -/
theorem c6_success_message_witness :
    "The file has been uploaded to mybucket"
        = "The file has been uploaded to " ++ "mybucket" ∧
    (listInfixB (newhomeOf "data/report.xlsx").toList "mybucket".toList = false →
      listInfixB (newhomeOf "data/report.xlsx").toList
        "The file has been uploaded to mybucket".toList = false) :=
  c6_success_message (fun _ _ => [])
    (mkEvent (.jstr "mybucket") (.jstr "data/report.xlsx")) ⟨[]⟩
    "The file has been uploaded to mybucket"
    ⟨[("mybucket", "Tags/data/report_tagged.csv", ",Table_Name/Kafka_Name,Tags\n")]⟩
    "mybucket" "data/report.xlsx" rfl rfl

/-- Counterexample to C8 as stated: an eligible sheet whose designated cell
is empty produces a record whose name is None, which is not of string
type. -/
theorem c8_counterexample :
    tagger [⟨"Table_cex", [[Cell.str "a", Cell.str "b", Cell.none]]⟩] ["Table_cex"]
      = .ok ⟨[Cell.none], [["None"]]⟩ ∧
    Cell.isStr Cell.none = false :=
  ⟨rfl, rfl⟩

/-- C8 as amended: every record name is the raw value of the designated cell,
so it is of string type exactly when that cell holds text; an empty cell
yields a None name instead of a string. -/
theorem c8_name_type_follows_cell :
    ∀ (wb : List Sheet) (names : List String) (t : TagTable) (j : Nat)
        (n : String) (s : Sheet) (row0 : List Cell) (v : Cell),
      tagger wb names = .ok t →
      (names.filter containsTable)[j]? = some n →
      wbLookup wb n = .ok s →
      s.grid[0]? = some row0 →
      row0[2]? = some v →
      t.names[j]? = some v ∧
        (Cell.isStr v = true ↔ ∃ s', v = Cell.str s') := by
  intro wb names t j n s row0 v ht hj hw hr hv
  refine ⟨(tagger_getElem_of_chain wb names t j n s row0 v ht hj hw hr hv).1, ?_⟩
  cases v with
  | none => simp [Cell.isStr]
  | str s' => simp [Cell.isStr]

/-- Witness for C8 as amended, at a one-sheet workbook whose designated cell
holds text. -/
theorem c8_name_type_follows_cell_witness :
    tagger [⟨"Table9", [[Cell.str "p", Cell.str "q", Cell.str "x.y"]]⟩] ["Table9"]
      = .ok ⟨[Cell.str "x.y"], [["x", "y"]]⟩ ∧
    (⟨[Cell.str "x.y"], [["x", "y"]]⟩ : TagTable).names[0]? = some (Cell.str "x.y") ∧
    (Cell.isStr (Cell.str "x.y") = true ↔ ∃ s', Cell.str "x.y" = Cell.str s') :=
  ⟨rfl,
   c8_name_type_follows_cell
     [⟨"Table9", [[Cell.str "p", Cell.str "q", Cell.str "x.y"]]⟩] ["Table9"]
     ⟨[Cell.str "x.y"], [["x", "y"]]⟩ 0 "Table9"
     ⟨"Table9", [[Cell.str "p", Cell.str "q", Cell.str "x.y"]]⟩
     [Cell.str "p", Cell.str "q", Cell.str "x.y"] (Cell.str "x.y")
     rfl rfl rfl rfl rfl⟩

/-- C10: an eligible sheet with a present but empty designated cell does not
make the extractor fail — whenever every eligible sheet resolves to a cell
value the extractor succeeds — and the produced record has name None (not a
string) and tags ["None"]. -/
theorem c10_empty_cell_yields_none_row :
    (∀ (wb : List Sheet) (names : List String),
      (∀ n ∈ names.filter containsTable, ∃ v, sheetRecord wb n = .ok v) →
      ∃ t, tagger wb names = .ok t) ∧
    (∀ (wb : List Sheet) (names : List String) (t : TagTable) (j : Nat)
        (n : String) (s : Sheet) (row0 : List Cell),
      tagger wb names = .ok t →
      (names.filter containsTable)[j]? = some n →
      wbLookup wb n = .ok s →
      s.grid[0]? = some row0 →
      row0[2]? = some Cell.none →
      t.names[j]? = some Cell.none ∧ Cell.isStr Cell.none = false ∧
        t.tags[j]? = some ["None"]) ∧
    tagger [⟨"Table_e", [[Cell.str "h1", Cell.str "h2", Cell.none]]⟩] ["Table_e"]
      = .ok ⟨[Cell.none], [["None"]]⟩ := by
  refine ⟨?_, ?_, rfl⟩
  · intro wb names h
    obtain ⟨vs, hvs⟩ := collectE_ok_of_all (sheetRecord wb)
      (names.filter containsTable) h
    exact ⟨mkTable vs, by rw [tagger_eq, hvs]; rfl⟩
  · intro wb names t j n s row0 ht hj hw hr hv
    have h := tagger_getElem_of_chain wb names t j n s row0 Cell.none ht hj hw hr hv
    exact ⟨h.1, rfl, h.2⟩

/-- Witness for C10 at a one-sheet workbook whose designated cell is
empty. -/
theorem c10_empty_cell_yields_none_row_witness :
    (∃ t, tagger [⟨"Table_e", [[Cell.str "h1", Cell.str "h2", Cell.none]]⟩]
        ["Table_e"] = .ok t) ∧
    ((⟨[Cell.none], [["None"]]⟩ : TagTable).names[0]? = some Cell.none ∧
      Cell.isStr Cell.none = false ∧
      (⟨[Cell.none], [["None"]]⟩ : TagTable).tags[0]? = some ["None"]) :=
  ⟨c10_empty_cell_yields_none_row.1
     [⟨"Table_e", [[Cell.str "h1", Cell.str "h2", Cell.none]]⟩] ["Table_e"]
     (by intro n hn
         rw [show (["Table_e"].filter containsTable) = ["Table_e"] from rfl] at hn
         rcases List.mem_singleton.mp hn with rfl
         exact ⟨Cell.none, rfl⟩),
   c10_empty_cell_yields_none_row.2.1
     [⟨"Table_e", [[Cell.str "h1", Cell.str "h2", Cell.none]]⟩] ["Table_e"]
     ⟨[Cell.none], [["None"]]⟩ 0 "Table_e"
     ⟨"Table_e", [[Cell.str "h1", Cell.str "h2", Cell.none]]⟩
     [Cell.str "h1", Cell.str "h2", Cell.none]
     rfl rfl rfl rfl rfl⟩

theorem toList_append (a b : String) : (a ++ b).toList = a.toList ++ b.toList :=
  String.data_append a b

theorem noNlL_append {a b : List Char} (ha : noNlL a) (hb : noNlL b) :
    noNlL (a ++ b) := by
  intro c hc
  rcases List.mem_append.mp hc with h | h
  · exact ha c h
  · exact hb c h

theorem digitChar_ne_nl (m : Nat) : digitChar m ≠ '\n' := by
  unfold digitChar
  split <;> decide

theorem noNlL_natChars (fuel : Nat) : ∀ n : Nat, noNlL (natChars fuel n) := by
  induction fuel with
  | zero => intro n c hc; cases hc
  | succ fuel ih =>
    intro n c hc
    simp only [natChars] at hc
    split at hc
    · rw [List.mem_singleton.mp hc]
      exact digitChar_ne_nl n
    · rcases List.mem_append.mp hc with h | h
      · exact ih (n / 10) c h
      · rw [List.mem_singleton.mp h]
        exact digitChar_ne_nl (n % 10)

theorem plainChar_ne_nl {c : Char} (h : plainChar c = true) : c ≠ '\n' :=
  fun he => absurd (he ▸ h) (by decide)

theorem noNlL_of_plain {s : String} (h : plainString s = true) : noNlL s.toList :=
  fun c hc => plainChar_ne_nl (List.all_eq_true.mp h c hc)

theorem csvNeedsQuote_false_of_plain {s : String} (h : plainString s = true) :
    csvNeedsQuote s = false := by
  cases hq : csvNeedsQuote s with
  | false => rfl
  | true =>
    exfalso
    obtain ⟨c, hc, hp⟩ := List.any_eq_true.mp hq
    have hpc : plainChar c = true := List.all_eq_true.mp h c hc
    simp only [Bool.or_eq_true, decide_eq_true_eq] at hp
    rcases hp with ((rfl | rfl) | rfl) | rfl <;> exact absurd hpc (by decide)

theorem csvField_eq_of_plain {s : String} (h : plainString s = true) :
    csvField s = s := by
  rw [csvField, csvNeedsQuote_false_of_plain h]
  rfl

theorem noNlL_csvEscape {s : String} (h : noNlL s.toList) :
    noNlL (csvEscape s).toList := by
  intro c hc
  obtain ⟨a, ha, hca⟩ := List.mem_flatMap.mp hc
  by_cases ha2 : a = '"'
  · rw [if_pos ha2] at hca
    rcases List.mem_cons.mp hca with rfl | hca'
    · decide
    · rw [List.mem_singleton.mp hca']
      decide
  · rw [if_neg ha2] at hca
    rw [List.mem_singleton.mp hca]
    exact h a ha

theorem noNlL_csvField {s : String} (h : noNlL s.toList) :
    noNlL (csvField s).toList := by
  rw [csvField]
  split
  · rw [toList_append, toList_append]
    refine noNlL_append (noNlL_append ?_ (noNlL_csvEscape h)) ?_
    · intro c hc
      rw [List.mem_singleton.mp hc]
      decide
    · intro c hc
      rw [List.mem_singleton.mp hc]
      decide
  · exact h

theorem noNlL_joinSep (sep : String) (hsep : noNlL sep.toList) :
    ∀ xs : List String, (∀ s ∈ xs, noNlL s.toList) →
      noNlL (joinSep sep xs).toList := by
  intro xs
  induction xs with
  | nil => intro _ c hc; cases hc
  | cons x rest ih =>
    intro h
    cases rest with
    | nil => exact h x (List.mem_singleton.mpr rfl)
    | cons y t =>
      show noNlL ((x ++ sep ++ joinSep sep (y :: t))).toList
      rw [toList_append, toList_append]
      refine noNlL_append (noNlL_append ?_ hsep) ?_
      · exact h x (List.mem_cons_self x (y :: t))
      · exact ih fun s hs => h s (List.mem_cons_of_mem x hs)

theorem noNlL_pyStrList {ts : List String} (h : ∀ s ∈ ts, plainString s = true) :
    noNlL (pyStrList ts).toList := by
  rw [pyStrList, toList_append, toList_append]
  refine noNlL_append (noNlL_append ?_ ?_) ?_
  · intro c hc
    rw [List.mem_singleton.mp hc]
    decide
  · refine noNlL_joinSep ", " (by decide) (ts.map pyReprStr) ?_
    intro s hs
    obtain ⟨x, hx, rfl⟩ := List.mem_map.mp hs
    show noNlL (("'" ++ x ++ "'")).toList
    rw [toList_append, toList_append]
    refine noNlL_append (noNlL_append ?_ (noNlL_of_plain (h x hx))) ?_
    · intro c hc
      rw [List.mem_singleton.mp hc]
      decide
    · intro c hc
      rw [List.mem_singleton.mp hc]
      decide
  · intro c hc
    rw [List.mem_singleton.mp hc]
    decide

theorem noNlL_cellCsv {cell : Cell} (h : plainCell cell = true) :
    noNlL (cellCsv cell).toList := by
  cases cell with
  | none => intro c hc; cases hc
  | str s =>
    show noNlL (csvField s).toList
    rw [csvField_eq_of_plain h]
    exact noNlL_of_plain h

theorem noNlL_csvRowBody (i : Nat) (row : Cell × List String)
    (h1 : plainCell row.1 = true) (h2 : ∀ s ∈ row.2, plainString s = true) :
    noNlL (csvRowBody i row).toList := by
  rw [csvRowBody, toList_append, toList_append, toList_append, toList_append]
  refine noNlL_append (noNlL_append (noNlL_append (noNlL_append ?_ ?_) ?_) ?_) ?_
  · exact noNlL_natChars (i + 1) i
  · intro c hc
    rw [List.mem_singleton.mp hc]
    decide
  · exact noNlL_cellCsv h1
  · intro c hc
    rw [List.mem_singleton.mp hc]
    decide
  · exact noNlL_csvField (noNlL_pyStrList h2)

theorem splitCharOn_append (sep : Char) :
    ∀ xs : List Char, (∀ c ∈ xs, c ≠ sep) → ∀ ys : List Char,
      splitCharOn sep (xs ++ sep :: ys) = xs :: splitCharOn sep ys := by
  intro xs
  induction xs with
  | nil =>
    intro _ ys
    show (if sep = sep then [] :: splitCharOn sep ys else _) = [] :: splitCharOn sep ys
    rw [if_pos rfl]
  | cons c t ih =>
    intro h ys
    have hc : ¬ (c = sep) := h c (List.mem_cons_self c t)
    have ih' := ih (fun d hd => h d (List.mem_cons_of_mem c hd)) ys
    show (if c = sep then [] :: splitCharOn sep (t ++ sep :: ys)
          else match splitCharOn sep (t ++ sep :: ys) with
            | [] => [[c]]
            | l :: ls => (c :: l) :: ls) = (c :: t) :: splitCharOn sep ys
    rw [if_neg hc, ih']

theorem linesOf_rowsCsv :
    ∀ rows : List (Cell × List String),
      (∀ row ∈ rows, plainCell row.1 = true ∧ ∀ s ∈ row.2, plainString s = true) →
      ∀ i : Nat,
      linesOf (rowsCsv i rows).toList
        = (List.enumFrom i rows).map (fun p => (csvRowBody p.1 p.2).toList) ++ [[]] := by
  intro rows
  induction rows with
  | nil => intro _ i; rfl
  | cons r rest ih =>
    intro h i
    have hr := h r (List.mem_cons_self r rest)
    have hbody := noNlL_csvRowBody i r hr.1 hr.2
    show linesOf ((csvRowBody i r ++ "\n" ++ rowsCsv (i + 1) rest)).toList = _
    rw [toList_append, toList_append, List.append_assoc]
    show splitCharOn '\n'
        ((csvRowBody i r).toList ++ '\n' :: (rowsCsv (i + 1) rest).toList) = _
    rw [splitCharOn_append '\n' (csvRowBody i r).toList hbody]
    have ih' := ih (fun row hrow => h row (List.mem_cons_of_mem r hrow)) (i + 1)
    rw [show splitCharOn '\n' (rowsCsv (i + 1) rest).toList
        = linesOf (rowsCsv (i + 1) rest).toList from rfl, ih']
    rfl

/-- C7: the serialized artifact splits at LF into the header line
",Table_Name/Kafka_Name,Tags" (an unnamed row-index column then the two
data columns), one data line per record — row index, name cell, and the
Tags list rendered as the string form of the list inside a csv field —
and the final empty segment of the trailing LF (stated for records of
plain printable text, where the embedded serializer is exact). -/
theorem c7_csv_serialization :
    ∀ t : TagTable,
      (∀ cell ∈ t.names, plainCell cell = true) →
      (∀ ts ∈ t.tags, ∀ s ∈ ts, plainString s = true) →
      linesOf (to_csv t).toList
        = ",Table_Name/Kafka_Name,Tags".toList
            :: ((List.enumFrom 0 (t.names.zip t.tags)).map
                  (fun p => (csvRowBody p.1 p.2).toList) ++ [[]]) := by
  intro t h1 h2
  have hform : to_csv t
      = ",Table_Name/Kafka_Name,Tags" ++ "\n" ++ rowsCsv 0 (t.names.zip t.tags) := rfl
  rw [hform, toList_append, toList_append, List.append_assoc]
  show splitCharOn '\n'
      (",Table_Name/Kafka_Name,Tags".toList ++ '\n' :: (rowsCsv 0 (t.names.zip t.tags)).toList) = _
  rw [splitCharOn_append '\n' _ (by decide)]
  rw [show splitCharOn '\n' (rowsCsv 0 (t.names.zip t.tags)).toList
      = linesOf (rowsCsv 0 (t.names.zip t.tags)).toList from rfl]
  rw [linesOf_rowsCsv (t.names.zip t.tags) ?_ 0]
  intro row hrow
  have hm := List.of_mem_zip hrow
  exact ⟨h1 row.1 hm.1, fun s hs => h2 row.2 hm.2 s hs⟩

/-- Witness for C7 at the one-record table for "region.us-east.prod". -/
theorem c7_csv_serialization_witness :
    (∀ cell ∈ (⟨[Cell.str "region.us-east.prod"], [["region", "us-east", "prod"]]⟩ :
        TagTable).names, plainCell cell = true) ∧
    linesOf (to_csv ⟨[Cell.str "region.us-east.prod"], [["region", "us-east", "prod"]]⟩).toList
      = ",Table_Name/Kafka_Name,Tags".toList
          :: ((List.enumFrom 0
                (([Cell.str "region.us-east.prod"] : List Cell).zip
                  ([["region", "us-east", "prod"]] : List (List String)))).map
                (fun p => (csvRowBody p.1 p.2).toList) ++ [[]]) :=
  ⟨by decide,
   c7_csv_serialization
     ⟨[Cell.str "region.us-east.prod"], [["region", "us-east", "prod"]]⟩
     (by decide) (by decide)⟩
